import Mathlib

/-!
  # Verification of the Chert/Silica Go SDK core

  A shallow embedding of the SDK's transport and transaction-lifecycle layer:
  the JSON-RPC envelope and `Call`'s response handling, the wallet manager's
  `SendTransaction` and `WaitForTransaction`, address derivation
  (`GenerateAddress`, hex over SHA-256), and the privacy manager's XOR memo
  encryption (`EncryptMemo` / `DecryptMemo`).

  Go values are modelled as follows: Go strings that carry text are Lean
  `String`; Go byte slices (and Go strings used as raw byte containers, such
  as the memo plaintext) are `List Nat` with every element `< 256`; JSON
  values (`interface` payloads) are the `Json` inductive below; fallible Go
  functions return `Except`/`Option`; a Go runtime panic (such as modulo by
  zero) is the `GoResult.fault` constructor. The polling loop, whose Go source
  may fail to terminate, is embedded with an explicit fuel parameter: a result
  of `none` means the loop has not returned within the given number of
  iterations, for any fuel.
-/

namespace ChertSDK

/-- A JSON value: the model of a decoded Go `interface` holding JSON data.
Numbers are modelled as integers (the claims under study never exercise
fractional values), and objects as ordered association lists, matching the
order in which Go's decoder hands fields to a struct target. -/
inductive Json where
  | null
  | bool (b : Bool)
  | num (n : Int)
  | str (s : String)
  | arr (elems : List Json)
  | obj (fields : List (String × Json))

/-- True exactly on the JSON null value. -/
def Json.isNull : Json → Bool
  | .null => true
  | _ => false

/-- Lookup of a key in a JSON object's field list (first match wins, as in a
decoded Go map access). -/
def lookupField : List (String × Json) → String → Option Json
  | [], _ => none
  | (k, v) :: rest, key => if k = key then some v else lookupField rest key

/-- Set a key in an association-list slot, overwriting an existing binding or
appending a new one. Models writing one struct field of the target of
`json.Unmarshal`. -/
def setField : List (String × Json) → String → Json → List (String × Json)
  | [], key, v => [(key, v)]
  | (k, w) :: rest, key, v =>
    if k = key then (k, v) :: rest else (k, w) :: setField rest key v

/-! ## Hex encoding and decoding (`encoding/hex`) -/

/-- The lowercase hex digit for a value below 16, as produced by Go's
`hex.EncodeToString`. -/
def hexDigit (n : Nat) : Char :=
  if n < 10 then Char.ofNat (48 + n) else Char.ofNat (87 + n)

/-- Hex-encode a byte list: two lowercase digits per byte, in order. -/
def hexEncodeBytes : List Nat → List Char
  | [] => []
  | b :: rest => hexDigit (b / 16) :: hexDigit (b % 16) :: hexEncodeBytes rest

/-- Go's `hex.EncodeToString` on a byte slice. -/
def hexEncode (l : List Nat) : String := String.mk (hexEncodeBytes l)

/-- The value of one hex digit character, accepting the ranges Go's
`encoding/hex` accepts: `0-9`, `a-f`, `A-F`. -/
def hexDigitVal (c : Char) : Option Nat :=
  if 48 ≤ c.toNat ∧ c.toNat ≤ 57 then some (c.toNat - 48)
  else if 97 ≤ c.toNat ∧ c.toNat ≤ 102 then some (c.toNat - 87)
  else if 65 ≤ c.toNat ∧ c.toNat ≤ 70 then some (c.toNat - 55)
  else none

/-- Decode a hex character list into bytes; `none` on an odd length or a
non-hex character, as Go's `hex.DecodeString` errors there. -/
def hexDecodeChars : List Char → Option (List Nat)
  | [] => some []
  | [_] => none
  | c1 :: c2 :: rest =>
    match hexDigitVal c1, hexDigitVal c2, hexDecodeChars rest with
    | some hi, some lo, some bs => some ((16 * hi + lo) :: bs)
    | _, _, _ => none

/-- Go's `hex.DecodeString`. -/
def hexDecode (s : String) : Option (List Nat) := hexDecodeChars s.data

/-! ## JSON-RPC envelope (`types.go`, `JSONRPCRequest` / `JSONRPCResponse`) -/

/-- The outbound JSON-RPC request envelope (`JSONRPCRequest` in `types.go`).
`params` is the Go `interface` field; the Go `nil` interface is `Json.null`. -/
structure JSONRPCRequest where
  jsonrpc : String
  method : String
  params : Json
  id : Json

/-- The RPC error object (`JSONRPCError` in `types.go`). -/
structure JSONRPCError where
  code : Int
  message : String
  data : Json

/-- The decoded inbound envelope (`JSONRPCResponse` in `types.go`). `result`
is `none` when the field is absent or JSON null (a `nil` Go interface);
`error` is `none` when the error pointer is `nil`. -/
structure JSONRPCResponse where
  jsonrpc : String
  result : Option Json
  error : Option JSONRPCError
  id : Json

/-- The envelope `Call` builds (rpc source, lines 30–35): fixed `"2.0"`
version tag, the given method and params, and constant id `1`. -/
def buildCallRequest (method : String) (params : Json) : JSONRPCRequest :=
  { jsonrpc := "2.0", method := method, params := params, id := Json.num 1 }

/-- Serialization of the request envelope to a JSON object, following the
struct tags of `JSONRPCRequest`: `params` carries `omitempty`, so it is
omitted exactly when the Go interface is `nil` (here: `Json.null`). -/
def encodeRequest (r : JSONRPCRequest) : Json :=
  Json.obj ([("jsonrpc", Json.str r.jsonrpc), ("method", Json.str r.method)]
    ++ (if r.params.isNull then [] else [("params", r.params)])
    ++ [("id", r.id)])

/-- Deserialization of a request envelope from a JSON object: an absent
`params` field decodes to the `nil` interface (`Json.null`), mirroring Go's
`json.Unmarshal` on `JSONRPCRequest`. -/
def decodeRequest (j : Json) : Option JSONRPCRequest :=
  match j with
  | .obj fields =>
    match lookupField fields "jsonrpc", lookupField fields "method" with
    | some (.str ver), some (.str m) =>
      some { jsonrpc := ver, method := m,
             params := (lookupField fields "params").getD Json.null,
             id := (lookupField fields "id").getD Json.null }
    | _, _ => none
  | _ => none

/-! ## `Call` response handling (rpc source, lines 55–72)

`Call`'s behaviour after the envelope is decoded: a non-null error object is
returned as-is before the result slot is touched; otherwise, when the caller
passed a non-nil `out` slot and a result payload is present, the payload is
re-marshalled and unmarshalled into `out`'s concrete shape. The unmarshal
step models Go's documented `encoding/json` semantics for struct targets:
unknown keys are ignored, a JSON null is a no-op for a non-pointer field,
a type mismatch skips that field but decoding continues, and the earliest
type error is returned at the end. -/

/-- The primitive kind of one struct field of the unmarshal target. -/
inductive FieldKind where
  | str
  | num
  | bool
  | obj
  | arr

/-- Lookup of a field's kind in the target shape. -/
def lookupKind : List (String × FieldKind) → String → Option FieldKind
  | [], _ => none
  | (k, v) :: rest, key => if k = key then some v else lookupKind rest key

/-- Whether a JSON value can be stored in a field of the given kind. -/
def kindMatches : FieldKind → Json → Bool
  | .str, .str _ => true
  | .num, .num _ => true
  | .bool, .bool _ => true
  | .obj, .obj _ => true
  | .arr, .arr _ => true
  | _, _ => false

/-- One pass of `json.Unmarshal` over the payload object's fields against a
struct shape: returns the earliest type error (if any) and the updated slot.
Matching values are written, mismatching values are skipped (the rest of the
object still decodes), nulls and unknown keys are no-ops. -/
def unmarshalFields (shape : List (String × FieldKind)) :
    List (String × Json) → List (String × Json) →
    Option String × List (String × Json)
  | [], slot => (none, slot)
  | (k, v) :: rest, slot =>
    match lookupKind shape k with
    | none => unmarshalFields shape rest slot
    | some kind =>
      if v.isNull then unmarshalFields shape rest slot
      else if kindMatches kind v then unmarshalFields shape rest (setField slot k v)
      else
        (some ("json: cannot unmarshal value into field " ++ k),
         (unmarshalFields shape rest slot).2)

/-- `json.Unmarshal` of a payload into a struct-shaped slot: a non-object,
non-null payload is a top-level type error that writes nothing. -/
def jsonUnmarshalInto (shape : List (String × FieldKind)) (payload : Json)
    (slot : List (String × Json)) : Option String × List (String × Json) :=
  match payload with
  | .obj fields => unmarshalFields shape fields slot
  | .null => (none, slot)
  | _ => (some "json: cannot unmarshal value into struct", slot)

/-- The outcome `Call` reports to its caller once the envelope is decoded. -/
inductive CallOutcome where
  | success
  | rpcErr (e : JSONRPCError)
  | decodeErr (msg : String)

/-- The tail of `Call` (rpc source, lines 60–72), given the decoded response
envelope: the caller's `out` slot is threaded explicitly (`none` models a
`nil` `out`), and the returned slot is the slot after the call. -/
def callHandleDecoded (rpcResp : JSONRPCResponse)
    (shape : List (String × FieldKind)) (out : Option (List (String × Json))) :
    CallOutcome × Option (List (String × Json)) :=
  match rpcResp.error with
  | some e => (.rpcErr e, out)
  | none =>
    match out, rpcResp.result with
    | some slot, some payload =>
      match jsonUnmarshalInto shape payload slot with
      | (some msg, slot') => (.decodeErr msg, some slot')
      | (none, slot') => (.success, some slot')
    | _, _ => (.success, out)

/-! ## Wallet data model (`types.go`) -/

/-- A blockchain account (`Account` in `types.go`). An empty `privateKey`
models the absent (`omitempty`) key of a watch-only account. -/
structure Account where
  Address : String
  PublicKey : String
  PrivateKey : String

/-- A caller-supplied transaction request (`TransactionRequest`). -/
structure TransactionRequest where
  To : String
  Amount : String
  Fee : String
  Memo : String
  Nonce : Nat

/-- A server-truth transaction snapshot (`Transaction` in `types.go`); the
timestamp is modelled as a plain number. -/
structure Transaction where
  Hash : String
  From : String
  To : String
  Amount : String
  Fee : String
  Memo : String
  BlockHeight : Nat
  Status : String
  Timestamp : Nat
  Nonce : Nat

/-! ## `SendTransaction` (wallet source, lines 151–186)

The RPC transport is abstracted as a function from method name and params to
either an error or the decoded `map[string]interface` result, and the calls
the function issues are returned alongside the result so that "no network
interaction occurs" is a statement about the model. -/

/-- The error `SendTransaction` can return, separated by kind: the local
precondition failure, a signing failure (dead in the source: the mock signer
never fails), an error propagated from `Call`, and the invalid-response
error. -/
inductive SendTxError where
  | precondition (msg : String)
  | signingFailure (msg : String)
  | rpcFailure (msg : String)
  | invalidResponse (msg : String)

/-- The mock signer (wallet source, lines 265–270): the random transaction id
appended to a fixed tag. `genTxID` stands for the `GenerateTxID()` draw. -/
def signTransaction (_request : TransactionRequest) (_privateKey : String)
    (genTxID : String) : Except String String :=
  .ok ("mock_signature_" ++ genTxID)

/-- The submission payload `SendTransaction` assembles (wallet source,
lines 162–173): sender, recipient, amount, fee, nonce and signature, plus a
`memo` field exactly when the request's memo is non-empty. -/
def buildTxPayload (account : Account) (request : TransactionRequest)
    (signature : String) : List (String × Json) :=
  [("sender", Json.str account.Address),
   ("recipient", Json.str request.To),
   ("amount", Json.str request.Amount),
   ("fee", Json.str request.Fee),
   ("nonce", Json.num (Int.ofNat request.Nonce)),
   ("signature", Json.str signature)]
    ++ (if request.Memo ≠ "" then [("memo", Json.str request.Memo)] else [])

/-- The hash extraction at the end of `SendTransaction` (wallet source,
lines 181–185): the type assertion `result["hash"].(string)` succeeds on a
string value and yields the invalid-response error otherwise. -/
def extractHash (result : List (String × Json)) : Except SendTxError String :=
  match lookupField result "hash" with
  | some (Json.str txHash) => .ok txHash
  | _ => .error (.invalidResponse "invalid transaction response")

/-- `SendTransaction` (wallet source, lines 151–186): reject a missing
private key before anything else, sign, assemble the payload, call the
`sendTransaction` RPC method with the payload as the single positional
parameter, and extract the `hash` string from the result. The second
component of the result is the list of RPC calls issued. -/
def sendTransaction
    (rpc : String → Json → Except String (List (String × Json)))
    (genTxID : String) (request : TransactionRequest) (account : Account) :
    Except SendTxError String × List (String × Json) :=
  if account.PrivateKey = "" then
    (.error (.precondition "account does not have a private key"), [])
  else
    match signTransaction request account.PrivateKey genTxID with
    | .error e => (.error (.signingFailure e), [])
    | .ok signature =>
      let params := Json.arr [Json.obj (buildTxPayload account request signature)]
      match rpc "sendTransaction" params with
      | .error e => (.error (.rpcFailure e), [("sendTransaction", params)])
      | .ok result => (extractHash result, [("sendTransaction", params)])

/-! ## `WaitForTransaction` (wallet source, lines 196–226)

The loop fetches the transaction each iteration and keeps a simulated-time
counter `startTime` against the budget `timeoutMs`. The fetch is abstracted
as a function of the poll index. The loop in the source need not terminate
(the error branch `continue`s without advancing the counter), so the model
carries a fuel parameter: `none` means the loop has not returned within
`fuel` iterations. -/

/-- The polling interval of the source: `interval := uint64(2000)`. -/
def pollInterval : Nat := 2000

/-- The body of `WaitForTransaction`'s `for startTime < timeoutMs` loop.
Arguments after the budget: remaining fuel, poll index, current value of
`startTime`. A fetch error `continue`s without advancing `startTime`;
a `confirmed` status returns the transaction; `failed` / `rejected` return
an error naming the status; any other status advances `startTime` by the
interval and polls again. -/
def waitLoop (fetch : Nat → Except String Transaction) (timeoutMs : Nat) :
    Nat → Nat → Nat → Option (Except String Transaction)
  | 0, _, _ => none
  | fuel + 1, poll, startTime =>
    if startTime < timeoutMs then
      match fetch poll with
      | .error _ => waitLoop fetch timeoutMs fuel (poll + 1) startTime
      | .ok tx =>
        if tx.Status = "confirmed" then some (.ok tx)
        else if tx.Status = "failed" ∨ tx.Status = "rejected" then
          some (.error ("transaction " ++ tx.Status))
        else waitLoop fetch timeoutMs fuel (poll + 1) (startTime + pollInterval)
    else some (.error "transaction confirmation timeout")

/-- `WaitForTransaction` (wallet source, lines 196–226): a zero budget is
replaced by the 60000 default, then the loop runs from `startTime = 0`.
`fetch txHash` stands for `wm.client.GetTransaction(ctx, txHash)` at each
poll. -/
def WaitForTransaction (fetch : String → Nat → Except String Transaction)
    (txHash : String) (timeoutMs : Nat) (fuel : Nat) :
    Option (Except String Transaction) :=
  waitLoop (fetch txHash) (if timeoutMs = 0 then 60000 else timeoutMs) fuel 0 0

/-! ## Memo encryption (privacy source, lines 228–265) -/

/-- The result of running a Go function that may return a value, return an
error, or panic at runtime. -/
inductive GoResult (α : Type) where
  | fault
  | err (msg : String)
  | ok (val : α)

/-- The XOR loop shared by `EncryptMemo` and `DecryptMemo`:
`out[i] = in[i] ^ secret[i % len(secret)]`. When the secret is empty and the
input is not, the Go expression `i % len(secretBytes)` divides by zero and
panics; that is the `none` branch. -/
def xorWithSecret (secretBytes : List Nat) : Nat → List Nat → Option (List Nat)
  | _, [] => some []
  | i, b :: rest =>
    if h : secretBytes.length = 0 then none
    else
      match xorWithSecret secretBytes (i + 1) rest with
      | none => none
      | some tail =>
        some ((b ^^^ secretBytes.get
          ⟨i % secretBytes.length, Nat.mod_lt i (Nat.pos_of_ne_zero h)⟩) :: tail)

/-- `EncryptMemo` (privacy source, lines 228–244): hex-decode the shared
secret (error on invalid hex), XOR the memo bytes against it, hex-encode the
result. The memo is a Go string used as a byte container, so it is a byte
list here. -/
def EncryptMemo (memo : List Nat) (sharedSecret : String) : GoResult String :=
  match hexDecode sharedSecret with
  | none => .err "invalid shared secret"
  | some secretBytes =>
    match xorWithSecret secretBytes 0 memo with
    | none => .fault
    | some encrypted => .ok (hexEncode encrypted)

/-- `DecryptMemo` (privacy source, lines 247–265): hex-decode the ciphertext
and the shared secret (errors on invalid hex), XOR back, and return the raw
bytes (Go's `string(decrypted)`). -/
def DecryptMemo (encryptedMemo : String) (sharedSecret : String) :
    GoResult (List Nat) :=
  match hexDecode encryptedMemo with
  | none => .err "invalid encrypted memo"
  | some encryptedBytes =>
    match hexDecode sharedSecret with
    | none => .err "invalid shared secret"
    | some secretBytes =>
      match xorWithSecret secretBytes 0 encryptedBytes with
      | none => .fault
      | some decrypted => .ok decrypted

/-! ## SHA-256 (`crypto/sha256`) and `GenerateAddress`

A byte-level FIPS 180-4 SHA-256 over `List Nat`, with 32-bit words as `Nat`
reduced modulo `2 ^ 32`. Only structural facts (output length, byte bounds,
determinism) are used by the claims; the implementation is nevertheless the
real compression function, checked against the standard test vectors. -/

/-- Reduction to a 32-bit word. -/
def w32 (n : Nat) : Nat := n % 4294967296

/-- Right rotation of a 32-bit word by `k` bits, written arithmetically: the
low `k` bits wrap to the top. -/
def rotr32 (k x : Nat) : Nat := x / 2 ^ k + x % 2 ^ k * 2 ^ (32 - k)

/-- Logical right shift by `k` bits. -/
def shr32 (k x : Nat) : Nat := x / 2 ^ k

/-- The big sigma-0 function of the SHA-256 round. -/
def bsig0 (x : Nat) : Nat := rotr32 2 x ^^^ rotr32 13 x ^^^ rotr32 22 x

/-- The big sigma-1 function of the SHA-256 round. -/
def bsig1 (x : Nat) : Nat := rotr32 6 x ^^^ rotr32 11 x ^^^ rotr32 25 x

/-- The small sigma-0 function of the message schedule. -/
def ssig0 (x : Nat) : Nat := rotr32 7 x ^^^ rotr32 18 x ^^^ shr32 3 x

/-- The small sigma-1 function of the message schedule. -/
def ssig1 (x : Nat) : Nat := rotr32 17 x ^^^ rotr32 19 x ^^^ shr32 10 x

/-- The choice function: bits of `f` where `e` is set, of `g` elsewhere. The
complement of `e` is taken inside 32 bits via XOR with the all-ones word. -/
def chFn (e f g : Nat) : Nat := (e &&& f) ^^^ ((e ^^^ 4294967295) &&& g)

/-- The majority function of the SHA-256 round. -/
def majFn (a b c : Nat) : Nat := (a &&& b) ^^^ (a &&& c) ^^^ (b &&& c)

/-- The 64 SHA-256 round constants, written in decimal. -/
def K256 : List Nat :=
  [1116352408, 1899447441, 3049323471, 3921009573,
   961987163, 1508970993, 2453635748, 2870763221,
   3624381080, 310598401, 607225278, 1426881987,
   1925078388, 2162078206, 2614888103, 3248222580,
   3835390401, 4022224774, 264347078, 604807628,
   770255983, 1249150122, 1555081692, 1996064986,
   2554220882, 2821834349, 2952996808, 3210313671,
   3336571891, 3584528711, 113926993, 338241895,
   666307205, 773529912, 1294757372, 1396182291,
   1695183700, 1986661051, 2177026350, 2456956037,
   2730485921, 2820302411, 3259730800, 3345764771,
   3516065817, 3600352804, 4094571909, 275423344,
   430227734, 506948616, 659060556, 883997877,
   958139571, 1322822218, 1537002063, 1747873779,
   1955562222, 2024104815, 2227730452, 2361852424,
   2428436474, 2756734187, 3204031479, 3329325298]

/-- The eight working words of the hash state, `a` through `h` as `h0`
through `h7`. -/
structure Sha256State where
  h0 : Nat
  h1 : Nat
  h2 : Nat
  h3 : Nat
  h4 : Nat
  h5 : Nat
  h6 : Nat
  h7 : Nat

/-- The SHA-256 initial hash value, written in decimal. -/
def sha256InitState : Sha256State :=
  ⟨1779033703, 3144134277, 1013904242, 2773480762,
   1359893119, 2600822924, 528734635, 1541459225⟩

/-- Big-endian packing of bytes into 32-bit words, four at a time. -/
def bytesToWords : List Nat → List Nat
  | b0 :: b1 :: b2 :: b3 :: rest =>
    (b0 * 16777216 + b1 * 65536 + b2 * 256 + b3) :: bytesToWords rest
  | _ => []

/-- Extension of the 16-word schedule by `n` further words, each computed
from the words 2, 7, 15 and 16 places back. -/
def extendSchedule (ws : List Nat) : Nat → List Nat
  | 0 => ws
  | n + 1 =>
    let prev := extendSchedule ws n
    let t := prev.length
    prev ++ [w32 (ssig1 (prev.getD (t - 2) 0) + prev.getD (t - 7) 0
      + ssig0 (prev.getD (t - 15) 0) + prev.getD (t - 16) 0)]

/-- The full 64-word message schedule of one block. -/
def scheduleWords (ws : List Nat) : List Nat := extendSchedule ws 48

/-- One SHA-256 round: rotate the working words, feeding in one schedule
word and one round constant. -/
def roundStep (st : Sha256State) (wk : Nat × Nat) : Sha256State :=
  let t1 := w32 (st.h7 + bsig1 st.h4 + chFn st.h4 st.h5 st.h6 + wk.2 + wk.1)
  let t2 := w32 (bsig0 st.h0 + majFn st.h0 st.h1 st.h2)
  ⟨w32 (t1 + t2), st.h0, st.h1, st.h2, w32 (st.h3 + t1), st.h4, st.h5, st.h6⟩

/-- Compression of one 64-byte block into the running hash state. -/
def compress (st : Sha256State) (block : List Nat) : Sha256State :=
  let f := ((scheduleWords (bytesToWords block)).zip K256).foldl roundStep st
  ⟨w32 (st.h0 + f.h0), w32 (st.h1 + f.h1), w32 (st.h2 + f.h2),
   w32 (st.h3 + f.h3), w32 (st.h4 + f.h4), w32 (st.h5 + f.h5),
   w32 (st.h6 + f.h6), w32 (st.h7 + f.h7)⟩

/-- Big-endian serialization of a 32-bit word into four bytes. -/
def toBE32 (n : Nat) : List Nat :=
  [n / 16777216 % 256, n / 65536 % 256, n / 256 % 256, n % 256]

/-- Big-endian serialization of a 64-bit length into eight bytes. -/
def toBE64 (n : Nat) : List Nat :=
  [n / 72057594037927936 % 256, n / 281474976710656 % 256,
   n / 1099511627776 % 256, n / 4294967296 % 256,
   n / 16777216 % 256, n / 65536 % 256, n / 256 % 256, n % 256]

/-- Split a padded message into `count` blocks of 64 bytes. -/
def splitBlocks : Nat → List Nat → List (List Nat)
  | 0, _ => []
  | count + 1, l => l.take 64 :: splitBlocks count (l.drop 64)

/-- Serialization of the final state into the 32 digest bytes. -/
def digestBytes (st : Sha256State) : List Nat :=
  toBE32 st.h0 ++ toBE32 st.h1 ++ toBE32 st.h2 ++ toBE32 st.h3
    ++ toBE32 st.h4 ++ toBE32 st.h5 ++ toBE32 st.h6 ++ toBE32 st.h7

/-- SHA-256 of a byte message: pad with `0x80`, zeros and the 64-bit bit
length to a multiple of 64 bytes, compress each block, serialize. -/
def sha256 (msg : List Nat) : List Nat :=
  let padded := msg ++ 128 :: (List.replicate ((64 - (msg.length + 9) % 64) % 64) 0
    ++ toBE64 (8 * msg.length))
  digestBytes ((splitBlocks (padded.length / 64) padded).foldl compress sha256InitState)

/-- `GenerateAddress` (client source, lines 272–281): hex-decode the public
key (error on invalid hex), SHA-256 the raw bytes, truncate the digest to 20
bytes, hex-encode, and prepend the `chert_` network prefix. -/
def GenerateAddress (publicKey : String) : Except String String :=
  match hexDecode publicKey with
  | none => .error "invalid public key hex"
  | some pubKeyBytes =>
    .ok ("chert_" ++ hexEncode ((sha256 pubKeyBytes).take 20))

/-! ## Helper lemmas: hex codec -/

/-- Encoding a value below 16 and decoding it returns the value. -/
theorem hexDigitVal_hexDigit : ∀ n, n < 16 → hexDigitVal (hexDigit n) = some n := by
  decide

/-- A successfully decoded hex digit is below 16. -/
theorem hexDigitVal_lt {c : Char} {v : Nat} (h : hexDigitVal c = some v) : v < 16 := by
  unfold hexDigitVal at h
  split_ifs at h with h1 h2 h3 <;> simp_all <;> omega

/-- Decoding inverts encoding on byte lists. -/
theorem hexDecodeChars_encodeBytes :
    ∀ l : List Nat, (∀ b ∈ l, b < 256) →
      hexDecodeChars (hexEncodeBytes l) = some l
  | [], _ => rfl
  | b :: rest, h => by
    have hb : b < 256 := h b (List.mem_cons_self b rest)
    have hdiv : b / 16 < 16 := by omega
    have hmod : b % 16 < 16 := by omega
    have ih := hexDecodeChars_encodeBytes rest (fun x hx => h x (List.mem_cons_of_mem b hx))
    simp only [hexEncodeBytes, hexDecodeChars, hexDigitVal_hexDigit _ hdiv,
      hexDigitVal_hexDigit _ hmod, ih]
    have : 16 * (b / 16) + b % 16 = b := by omega
    rw [this]

/-- Decoding inverts encoding, phrased over strings. -/
theorem hexDecode_hexEncode {l : List Nat} (h : ∀ b ∈ l, b < 256) :
    hexDecode (hexEncode l) = some l :=
  hexDecodeChars_encodeBytes l h

/-- Every byte produced by the hex decoder is below 256. -/
theorem hexDecodeChars_bytes_lt :
    ∀ (cs : List Char) (l : List Nat), hexDecodeChars cs = some l →
      ∀ b ∈ l, b < 256
  | [], l, h => by
    simp only [hexDecodeChars, Option.some.injEq] at h
    subst h
    simp
  | [_], l, h => by
    simp [hexDecodeChars] at h
  | c1 :: c2 :: rest, l, h => by
    simp only [hexDecodeChars] at h
    cases h1 : hexDigitVal c1 <;> rw [h1] at h
    · simp at h
    · cases h2 : hexDigitVal c2 <;> rw [h2] at h
      · simp at h
      · cases h3 : hexDecodeChars rest <;> rw [h3] at h
        · simp at h
        · simp only [Option.some.injEq] at h
          subst h
          intro b hb
          rcases List.mem_cons.mp hb with hb | hb
          · have := hexDigitVal_lt h1
            have := hexDigitVal_lt h2
            omega
          · exact hexDecodeChars_bytes_lt rest _ h3 b hb

/-- Every byte produced by `hexDecode` is below 256. -/
theorem hexDecode_bytes_lt {s : String} {l : List Nat}
    (h : hexDecode s = some l) : ∀ b ∈ l, b < 256 :=
  hexDecodeChars_bytes_lt s.data l h

/-- The hex encoding of a byte list has two characters per byte. -/
theorem hexEncodeBytes_length : ∀ l : List Nat, (hexEncodeBytes l).length = 2 * l.length
  | [] => rfl
  | _ :: rest => by
    simp only [hexEncodeBytes, List.length_cons, hexEncodeBytes_length rest]
    omega

/-- The hex encoding of a byte list, as a string, has two characters per
byte. -/
theorem hexEncode_length (l : List Nat) : (hexEncode l).length = 2 * l.length :=
  hexEncodeBytes_length l

/-- Hex encoding is injective on byte lists. -/
theorem hexEncode_injOn {l1 l2 : List Nat} (h1 : ∀ b ∈ l1, b < 256)
    (h2 : ∀ b ∈ l2, b < 256) (h : hexEncode l1 = hexEncode l2) : l1 = l2 := by
  have e1 := hexDecode_hexEncode h1
  have e2 := hexDecode_hexEncode h2
  rw [h, e2] at e1
  exact (Option.some.injEq _ _ ▸ e1).symm

/-! ## Helper lemmas: the XOR loop -/

/-- With a non-empty secret the XOR loop never reaches the modulo-by-zero
branch. -/
theorem xorWithSecret_total (sb : List Nat) (hne : sb.length ≠ 0) :
    ∀ (i : Nat) (l : List Nat), ∃ out, xorWithSecret sb i l = some out
  | _, [] => ⟨[], rfl⟩
  | i, b :: rest => by
    obtain ⟨out, ho⟩ := xorWithSecret_total sb hne (i + 1) rest
    simp only [xorWithSecret, dif_neg hne, ho]
    exact ⟨_, rfl⟩

/-- Bytes coming out of the XOR loop stay below 256 when both inputs are
bytes. -/
theorem xorWithSecret_bytes_lt (sb : List Nat) (hsb : ∀ k ∈ sb, k < 256) :
    ∀ (i : Nat) (l out : List Nat), (∀ b ∈ l, b < 256) →
      xorWithSecret sb i l = some out → ∀ b ∈ out, b < 256
  | _, [], out, _, h => by
    simp only [xorWithSecret, Option.some.injEq] at h
    subst h
    simp
  | i, b :: rest, out, hl, h => by
    by_cases hz : sb.length = 0
    · simp [xorWithSecret, hz] at h
    · simp only [xorWithSecret, dif_neg hz] at h
      cases htail : xorWithSecret sb (i + 1) rest <;> rw [htail] at h
      · simp at h
      · simp only [Option.some.injEq] at h
        subst h
        intro x hx
        rcases List.mem_cons.mp hx with hx | hx
        · have hb : b < 256 := hl b (List.mem_cons_self b rest)
          have hk : sb.get ⟨i % sb.length, Nat.mod_lt i (Nat.pos_of_ne_zero hz)⟩ < 256 :=
            hsb _ (sb.get_mem _ _)
          have : b ^^^ sb.get ⟨i % sb.length, Nat.mod_lt i (Nat.pos_of_ne_zero hz)⟩ < 256 := by
            have h256 : (256 : Nat) = 2 ^ 8 := by norm_num
            rw [h256] at hb hk ⊢
            exact Nat.xor_lt_two_pow hb hk
          omega
        · exact xorWithSecret_bytes_lt sb hsb (i + 1) rest _
            (fun y hy => hl y (List.mem_cons_of_mem b hy)) htail x hx

/-- Running the XOR loop twice with the same secret and starting index gives
back the input. -/
theorem xorWithSecret_involutive (sb : List Nat) :
    ∀ (i : Nat) (l out : List Nat), xorWithSecret sb i l = some out →
      xorWithSecret sb i out = some l
  | _, [], out, h => by
    simp only [xorWithSecret, Option.some.injEq] at h
    subst h
    rfl
  | i, b :: rest, out, h => by
    by_cases hz : sb.length = 0
    · simp [xorWithSecret, hz] at h
    · simp only [xorWithSecret, dif_neg hz] at h
      cases htail : xorWithSecret sb (i + 1) rest <;> rw [htail] at h
      · simp at h
      · simp only [Option.some.injEq] at h
        subst h
        have ih := xorWithSecret_involutive sb (i + 1) rest _ htail
        simp only [xorWithSecret, dif_neg hz, ih, Nat.xor_cancel_right]

/-! ## Claims C9 and C10: memo encryption -/

/-- C9: for every memo (a byte string) and every shared secret that is a
valid hex string decoding to a non-empty byte sequence,
`DecryptMemo(EncryptMemo(memo, secret), secret)` succeeds and returns the
original memo — the XOR encryption round-trips. -/
theorem c9_memo_roundtrip (memo : List Nat) (secret : String) (sb : List Nat)
    (hsec : hexDecode secret = some sb) (hne : sb ≠ [])
    (hmemo : ∀ b ∈ memo, b < 256) :
    ∃ ct, EncryptMemo memo secret = .ok ct ∧ DecryptMemo ct secret = .ok memo := by
  have hlen : sb.length ≠ 0 := fun h => hne (List.length_eq_zero.mp h)
  obtain ⟨enc, henc⟩ := xorWithSecret_total sb hlen 0 memo
  have hsb_lt := hexDecode_bytes_lt hsec
  have henc_lt := xorWithSecret_bytes_lt sb hsb_lt 0 memo enc hmemo henc
  refine ⟨hexEncode enc, ?_, ?_⟩
  · simp only [EncryptMemo, hsec, henc]
  · simp only [DecryptMemo, hexDecode_hexEncode henc_lt, hsec,
      xorWithSecret_involutive sb 0 memo enc henc]

/-- Witness for C9 at a concrete memo and secret: encrypting the two bytes
`68 69` under secret `ff` and decrypting returns them. -/
theorem c9_witness :
    ∃ ct, EncryptMemo [104, 105] "ff" = .ok ct ∧
      DecryptMemo ct "ff" = .ok [104, 105] :=
  c9_memo_roundtrip [104, 105] "ff" [255] rfl (by simp) (by decide)

/-- C10: the memo operations are total only under the precondition that the
shared secret decodes to at least one byte; with a valid hex secret decoding
to zero bytes (the empty string) and a non-empty input, the indexing
`i % len(secretBytes)` divides by zero and the operation faults instead of
returning an error. -/
theorem c10_memo_totality_and_empty_secret_fault :
    (∀ (memo : List Nat) (secret : String) (sb : List Nat),
      hexDecode secret = some sb → sb ≠ [] →
        EncryptMemo memo secret ≠ GoResult.fault) ∧
    (∀ (ct secret : String) (sb : List Nat),
      hexDecode secret = some sb → sb ≠ [] →
        DecryptMemo ct secret ≠ GoResult.fault) ∧
    EncryptMemo [104] "" = GoResult.fault ∧
    DecryptMemo "68" "" = GoResult.fault := by
  refine ⟨?_, ?_, rfl, rfl⟩
  · intro memo secret sb hsec hne
    have hlen : sb.length ≠ 0 := fun h => hne (List.length_eq_zero.mp h)
    obtain ⟨enc, henc⟩ := xorWithSecret_total sb hlen 0 memo
    simp [EncryptMemo, hsec, henc]
  · intro ct secret sb hsec hne
    have hlen : sb.length ≠ 0 := fun h => hne (List.length_eq_zero.mp h)
    unfold DecryptMemo
    cases hct : hexDecode ct with
    | none => simp
    | some eb =>
      obtain ⟨dec, hdec⟩ := xorWithSecret_total sb hlen 0 eb
      simp [hsec, hdec]

/-- Witness for C10 at concrete inputs: a one-byte secret keeps both
operations away from the fault, and the empty secret faults. -/
theorem c10_witness :
    EncryptMemo [104] "ab" ≠ GoResult.fault ∧
    DecryptMemo "68" "ab" ≠ GoResult.fault ∧
    EncryptMemo [104] "" = GoResult.fault :=
  ⟨c10_memo_totality_and_empty_secret_fault.1 [104] "ab" [171] rfl (by simp),
   c10_memo_totality_and_empty_secret_fault.2.1 "68" "ab" [171] rfl (by simp),
   c10_memo_totality_and_empty_secret_fault.2.2.1⟩

/-! ## Claims C2 and C8: the RPC transport -/

/-- C2: whenever the decoded envelope carries a non-null error object,
`Call` returns exactly that error object — same code and message, unmodified
— and the caller's `out` slot is left untouched. -/
theorem c2_call_returns_rpc_error_verbatim (resp : JSONRPCResponse)
    (shape : List (String × FieldKind)) (out : Option (List (String × Json)))
    (e : JSONRPCError) (herr : resp.error = some e) :
    callHandleDecoded resp shape out = (.rpcErr e, out) := by
  unfold callHandleDecoded
  rw [herr]

/-- Witness for C2 at a concrete envelope: error code `-32000`, message
`boom`, a non-empty `out` slot that comes back unchanged. -/
theorem c2_witness :
    callHandleDecoded
      { jsonrpc := "2.0", result := some (Json.str "ignored"),
        error := some { code := -32000, message := "boom", data := Json.null },
        id := Json.num 1 }
      [("available", FieldKind.str)]
      (some [("available", Json.str "5")])
    = (.rpcErr { code := -32000, message := "boom", data := Json.null },
       some [("available", Json.str "5")]) :=
  c2_call_returns_rpc_error_verbatim _ _ _ _ rfl

/-- C8: for every method and params, the envelope `Call` builds carries the
fixed protocol version tag `"2.0"`, and serializing then deserializing the
envelope yields back the same method and params. -/
theorem c8_envelope_version_and_roundtrip (method : String) (params : Json) :
    (∃ fields, encodeRequest (buildCallRequest method params) = Json.obj fields ∧
      lookupField fields "jsonrpc" = some (Json.str "2.0")) ∧
    decodeRequest (encodeRequest (buildCallRequest method params)) =
      some (buildCallRequest method params) := by
  constructor
  · cases params <;> exact ⟨_, rfl, rfl⟩
  · cases params <;> rfl

/-! ## Claims C1 and C6: confirmation polling -/

/-- Under a fetcher that errors on every poll, the loop keeps its simulated
elapsed time unchanged and never returns, whatever the fuel. -/
theorem waitLoop_all_errors_none (msg : String) (timeoutMs : Nat) :
    ∀ (fuel poll s : Nat), s < timeoutMs →
      waitLoop (fun _ => .error msg) timeoutMs fuel poll s = none := by
  intro fuel
  induction fuel with
  | zero => intro poll s _; rfl
  | succ n ih =>
    intro poll s hs
    simp only [waitLoop, if_pos hs]
    exact ih (poll + 1) s hs

/-- C1, divergence of the code at the failing input: with a budget of 2000ms
and a fetcher whose every call errors (hash never indexed), the claim says
`WaitForTransaction` returns a timeout error within the budget plus one
interval; the code instead `continue`s without advancing its elapsed-time
counter, so the loop never returns however much fuel it is given. -/
theorem c1_waitForTransaction_diverges_on_fetch_errors :
    ∀ fuel : Nat,
      WaitForTransaction (fun _ _ => .error "transaction not found")
        "0xabc" 2000 fuel = none := by
  intro fuel
  unfold WaitForTransaction
  exact waitLoop_all_errors_none "transaction not found" _ fuel 0 0 (by norm_num)

/-- C6: during confirmation polling, whenever a poll inside the budget
fetches a transaction whose status is `confirmed`, the loop returns that
transaction with no error; whenever the fetched status is `failed` or
`rejected`, it returns an error naming that status and no transaction. -/
theorem c6_waitLoop_terminal_statuses
    (fetch : Nat → Except String Transaction) (timeoutMs fuel poll s : Nat)
    (tx : Transaction) (hfetch : fetch poll = .ok tx) (hs : s < timeoutMs) :
    (tx.Status = "confirmed" →
      waitLoop fetch timeoutMs (fuel + 1) poll s = some (.ok tx)) ∧
    ((tx.Status = "failed" ∨ tx.Status = "rejected") →
      waitLoop fetch timeoutMs (fuel + 1) poll s =
        some (.error ("transaction " ++ tx.Status))) := by
  constructor
  · intro hst
    simp only [waitLoop, if_pos hs, hfetch, hst]
    rfl
  · intro hst
    have hne : ¬ tx.Status = "confirmed" := by
      rcases hst with h | h <;> rw [h] <;> decide
    simp only [waitLoop, if_pos hs, hfetch, if_neg hne, if_pos hst]

/-- Witness for C6 at concrete polls: a first-poll `confirmed` fetch returns
the transaction, and a first-poll `failed` fetch returns the error naming
the status. -/
theorem c6_witness :
    waitLoop (fun _ => .ok ⟨"0xabc", "a", "b", "1", "0.1", "", 0, "confirmed", 0, 0⟩)
      60000 1 0 0 = some (.ok ⟨"0xabc", "a", "b", "1", "0.1", "", 0, "confirmed", 0, 0⟩) ∧
    waitLoop (fun _ => .ok ⟨"0xabc", "a", "b", "1", "0.1", "", 0, "failed", 0, 0⟩)
      60000 1 0 0 = some (.error "transaction failed") :=
  ⟨(c6_waitLoop_terminal_statuses _ 60000 0 0 0
      ⟨"0xabc", "a", "b", "1", "0.1", "", 0, "confirmed", 0, 0⟩ rfl (by norm_num)).1 rfl,
   (c6_waitLoop_terminal_statuses _ 60000 0 0 0
      ⟨"0xabc", "a", "b", "1", "0.1", "", 0, "failed", 0, 0⟩ rfl (by norm_num)).2 (Or.inl rfl)⟩

/-! ## Claims C4 and C5: transaction submission -/

/-- The mock signature is never the empty string. -/
theorem mockSignature_ne_empty (g : String) : "mock_signature_" ++ g ≠ "" := by
  intro h
  have hl := congrArg String.length h
  rw [String.length_append] at hl
  have h15 : ("mock_signature_" : String).length = 15 := rfl
  have h0 : ("" : String).length = 0 := rfl
  omega

/-- When the node's result has no string-typed `hash` field, the extraction
step yields the invalid-response error. -/
theorem extractHash_of_no_string_hash (res : List (String × Json))
    (hno : ∀ s, lookupField res "hash" ≠ some (Json.str s)) :
    extractHash res = .error (.invalidResponse "invalid transaction response") := by
  unfold extractHash
  cases hlk : lookupField res "hash" with
  | none => rfl
  | some j =>
    cases j with
    | str s => exact absurd hlk (hno s)
    | null => rfl
    | bool b => rfl
    | num n => rfl
    | arr xs => rfl
    | obj fs => rfl

/-- C4: submitting `{to: addrB, amount: 100.0, fee: 0.1}` with a key-bearing
account at address `addrA` produces a payload whose sender is `addrA`,
recipient `addrB`, amount `100.0`, fee `0.1`, with a non-empty signature;
when the node's result carries `hash: 0xabc` the call returns `0xabc`, and
when the result lacks a string `hash` field it returns the
`invalid transaction response` error rather than an empty hash. -/
theorem c4_sendTransaction_scenario (genTxID : String)
    (rpc : String → Json → Except String (List (String × Json))) :
    lookupField (buildTxPayload ⟨"addrA", "pkA", "aa"⟩
      ⟨"addrB", "100.0", "0.1", "", 0⟩ ("mock_signature_" ++ genTxID))
      "sender" = some (Json.str "addrA") ∧
    lookupField (buildTxPayload ⟨"addrA", "pkA", "aa"⟩
      ⟨"addrB", "100.0", "0.1", "", 0⟩ ("mock_signature_" ++ genTxID))
      "recipient" = some (Json.str "addrB") ∧
    lookupField (buildTxPayload ⟨"addrA", "pkA", "aa"⟩
      ⟨"addrB", "100.0", "0.1", "", 0⟩ ("mock_signature_" ++ genTxID))
      "amount" = some (Json.str "100.0") ∧
    lookupField (buildTxPayload ⟨"addrA", "pkA", "aa"⟩
      ⟨"addrB", "100.0", "0.1", "", 0⟩ ("mock_signature_" ++ genTxID))
      "fee" = some (Json.str "0.1") ∧
    lookupField (buildTxPayload ⟨"addrA", "pkA", "aa"⟩
      ⟨"addrB", "100.0", "0.1", "", 0⟩ ("mock_signature_" ++ genTxID))
      "signature" = some (Json.str ("mock_signature_" ++ genTxID)) ∧
    "mock_signature_" ++ genTxID ≠ "" ∧
    (rpc "sendTransaction" (Json.arr [Json.obj (buildTxPayload ⟨"addrA", "pkA", "aa"⟩
        ⟨"addrB", "100.0", "0.1", "", 0⟩ ("mock_signature_" ++ genTxID))])
      = .ok [("hash", Json.str "0xabc")] →
      (sendTransaction rpc genTxID ⟨"addrB", "100.0", "0.1", "", 0⟩
        ⟨"addrA", "pkA", "aa"⟩).1 = .ok "0xabc") ∧
    (∀ res, rpc "sendTransaction" (Json.arr [Json.obj (buildTxPayload ⟨"addrA", "pkA", "aa"⟩
        ⟨"addrB", "100.0", "0.1", "", 0⟩ ("mock_signature_" ++ genTxID))])
      = .ok res →
      (∀ s, lookupField res "hash" ≠ some (Json.str s)) →
      (sendTransaction rpc genTxID ⟨"addrB", "100.0", "0.1", "", 0⟩
        ⟨"addrA", "pkA", "aa"⟩).1 =
          .error (.invalidResponse "invalid transaction response")) := by
  refine ⟨rfl, rfl, rfl, rfl, rfl, mockSignature_ne_empty genTxID, ?_, ?_⟩
  · intro hrpc
    simp only [sendTransaction, signTransaction]
    rw [if_neg (show ¬("aa" = "") by decide), hrpc]
    rfl
  · intro res hrpc hno
    have hred : (sendTransaction rpc genTxID ⟨"addrB", "100.0", "0.1", "", 0⟩
        ⟨"addrA", "pkA", "aa"⟩).1 = extractHash res := by
      simp only [sendTransaction, signTransaction]
      rw [if_neg (show ¬("aa" = "") by decide), hrpc]
    rw [hred, extractHash_of_no_string_hash res hno]

/-- Witness for C4 at a concrete signer draw and two concrete node results:
a result with `hash: 0xabc` yields the hash, and a result without a `hash`
field yields the invalid-response error. -/
theorem c4_witness :
    (sendTransaction (fun _ _ => .ok [("hash", Json.str "0xabc")]) "g"
      ⟨"addrB", "100.0", "0.1", "", 0⟩ ⟨"addrA", "pkA", "aa"⟩).1 = .ok "0xabc" ∧
    (sendTransaction (fun _ _ => .ok [("status", Json.str "ok")]) "g"
      ⟨"addrB", "100.0", "0.1", "", 0⟩ ⟨"addrA", "pkA", "aa"⟩).1 =
      .error (.invalidResponse "invalid transaction response") :=
  ⟨(c4_sendTransaction_scenario "g" _).2.2.2.2.2.2.1 rfl,
   (c4_sendTransaction_scenario "g" _).2.2.2.2.2.2.2 [("status", Json.str "ok")] rfl
     (by simp [lookupField])⟩

/-- C5: for every request and every account with an empty private key,
`SendTransaction` fails with the local precondition error before signing or
issuing any RPC call — the error is not an RPC error, and the issued-call
log is empty. -/
theorem c5_sendTransaction_requires_private_key
    (rpc : String → Json → Except String (List (String × Json)))
    (genTxID : String) (request : TransactionRequest) (account : Account)
    (h : account.PrivateKey = "") :
    sendTransaction rpc genTxID request account =
      (.error (.precondition "account does not have a private key"), []) := by
  unfold sendTransaction
  rw [h]
  simp

/-- Witness for C5 at a concrete watch-only account. -/
theorem c5_witness :
    sendTransaction (fun _ _ => .ok []) "g" ⟨"addrB", "1", "0.1", "", 0⟩
      ⟨"addrA", "pk", ""⟩ =
      (.error (.precondition "account does not have a private key"), []) :=
  c5_sendTransaction_requires_private_key _ _ _ _ rfl

/-! ## Claim C3: shape mismatches in `Call` -/

/-- Looking a key up after a `setField` write: the written key reads back
the written value, other keys are unaffected. -/
theorem lookupField_setField (s : List (String × Json)) (key : String)
    (w : Json) (k : String) :
    lookupField (setField s key w) k =
      if k = key then some w else lookupField s k := by
  induction s with
  | nil =>
    by_cases h : key = k
    · subst h
      simp [setField, lookupField]
    · simp [setField, lookupField, h, Ne.symm h]
  | cons hd rest ih =>
    obtain ⟨k0, w0⟩ := hd
    by_cases h0 : k0 = key
    · subst h0
      by_cases hk : k0 = k
      · subst hk
        simp [setField, lookupField]
      · simp [setField, lookupField, hk, Ne.symm hk]
    · by_cases hk : k0 = k
      · subst hk
        simp [setField, lookupField, h0, Ne.symm h0]
      · simp [setField, lookupField, h0, hk, ih]

/-- Every binding readable from the slot after an unmarshal pass either was
already in the slot or is a payload value that matches its field's declared
kind: mismatching payload values are never written. -/
theorem unmarshalFields_writes_matching (shape : List (String × FieldKind)) :
    ∀ (fields slot : List (String × Json)) (k : String) (v : Json),
      lookupField (unmarshalFields shape fields slot).2 k = some v →
      lookupField slot k = some v ∨
        ∃ kind, lookupKind shape k = some kind ∧ kindMatches kind v = true
  | [], _, _, _, h => Or.inl h
  | (key, w) :: rest, slot, k, v, h => by
    simp only [unmarshalFields] at h
    cases hlk : lookupKind shape key with
    | none =>
      rw [hlk] at h
      exact unmarshalFields_writes_matching shape rest slot k v h
    | some kind =>
      rw [hlk] at h
      simp only [] at h
      by_cases hnull : w.isNull = true
      · rw [if_pos hnull] at h
        exact unmarshalFields_writes_matching shape rest slot k v h
      · rw [if_neg hnull] at h
        by_cases hmatch : kindMatches kind w = true
        · rw [if_pos hmatch] at h
          rcases unmarshalFields_writes_matching shape rest (setField slot key w) k v h
            with ih | ih
          · rw [lookupField_setField] at ih
            by_cases hk : k = key
            · rw [if_pos hk] at ih
              refine Or.inr ⟨kind, ?_, ?_⟩
              · rw [hk]
                exact hlk
              · cases ih
                exact hmatch
            · rw [if_neg hk] at ih
              exact Or.inl ih
          · exact Or.inr ih
        · rw [if_neg hmatch] at h
          exact unmarshalFields_writes_matching shape rest slot k v h

/-- On a successful envelope with a result payload, `Call`'s outcome is
given by the unmarshal pass over the payload. -/
theorem callHandleDecoded_of_result (resp : JSONRPCResponse)
    (shape : List (String × FieldKind)) (slot : List (String × Json))
    (payload : Json) (hnoerr : resp.error = none)
    (hres : resp.result = some payload) :
    callHandleDecoded resp shape (some slot) =
      match jsonUnmarshalInto shape payload slot with
      | (some msg, slot') => (.decodeErr msg, some slot')
      | (none, slot') => (.success, some slot') := by
  unfold callHandleDecoded
  rw [hnoerr, hres]

/-- Counterexample to C3 as stated: with `out` an empty `Balance`-shaped
slot and the successful payload `{pending: 5, total: "9"}`, `Call` does
return a decode error (the number cannot be stored in the string field
`pending`), but the matching field `total` has been written into `out` —
the slot is partially populated, where the claim says no field of `out` is
set from a mismatching payload. -/
theorem c3_counterexample_partial_population :
    callHandleDecoded
      { jsonrpc := "2.0",
        result := some (Json.obj [("pending", Json.num 5), ("total", Json.str "9")]),
        error := none, id := Json.num 1 }
      [("available", FieldKind.str), ("pending", FieldKind.str), ("total", FieldKind.str)]
      (some [])
      = (.decodeErr "json: cannot unmarshal value into field pending",
         some [("total", Json.str "9")]) ∧
    some [("total", Json.str "9")] ≠ (some ([] : List (String × Json))) := by
  constructor
  · rfl
  · intro h
    simp at h

/-- C3 amended: on a successful response whose payload shape mismatches the
caller's non-null `out` slot, `Call` returns a decode (shape) error; `out`,
however, may be partially populated — Go's `Unmarshal` skips the
mismatching fields and keeps decoding — with the guarantee that every field
written into `out` holds a payload value matching that field's declared
kind (mismatching payload values are never written). -/
theorem c3_amended_decode_error_matching_writes (resp : JSONRPCResponse)
    (shape : List (String × FieldKind)) (slot : List (String × Json))
    (payloadFields : List (String × Json)) (msg : String)
    (hnoerr : resp.error = none)
    (hres : resp.result = some (Json.obj payloadFields))
    (hmis : (unmarshalFields shape payloadFields slot).1 = some msg) :
    callHandleDecoded resp shape (some slot) =
      (.decodeErr msg, some (unmarshalFields shape payloadFields slot).2) ∧
    (∀ k v, lookupField (unmarshalFields shape payloadFields slot).2 k = some v →
      lookupField slot k = some v ∨
        ∃ kind, lookupKind shape k = some kind ∧ kindMatches kind v = true) := by
  refine ⟨?_, fun k v h => unmarshalFields_writes_matching shape payloadFields slot k v h⟩
  rw [callHandleDecoded_of_result resp shape slot (Json.obj payloadFields) hnoerr hres]
  rcases hj : unmarshalFields shape payloadFields slot with ⟨e, s'⟩
  rw [hj] at hmis
  simp only at hmis
  subst hmis
  rw [show jsonUnmarshalInto shape (Json.obj payloadFields) slot =
    (some msg, s') from hj]

/-- Witness for the amended C3 at the concrete counterexample input: the
decode error is returned and the only written field, `total`, holds a
string as its declared kind requires. -/
theorem c3_witness :
    callHandleDecoded
      { jsonrpc := "2.0",
        result := some (Json.obj [("pending", Json.num 5), ("total", Json.str "9")]),
        error := none, id := Json.num 1 }
      [("available", FieldKind.str), ("pending", FieldKind.str), ("total", FieldKind.str)]
      (some [])
      = (.decodeErr "json: cannot unmarshal value into field pending",
         some [("total", Json.str "9")]) :=
  (c3_amended_decode_error_matching_writes _
    [("available", FieldKind.str), ("pending", FieldKind.str), ("total", FieldKind.str)]
    [] [("pending", Json.num 5), ("total", Json.str "9")]
    "json: cannot unmarshal value into field pending" rfl rfl rfl).1

/-! ## Claim C7: address derivation -/

/-- The digest serialization always has 32 bytes. -/
theorem digestBytes_length (st : Sha256State) : (digestBytes st).length = 32 := by
  simp [digestBytes, toBE32]

/-- SHA-256 always produces 32 bytes. -/
theorem sha256_length (msg : List Nat) : (sha256 msg).length = 32 :=
  digestBytes_length _

/-- Every byte of the digest serialization is below 256. -/
theorem digestBytes_lt (st : Sha256State) : ∀ b ∈ digestBytes st, b < 256 := by
  intro b hb
  simp [digestBytes, toBE32] at hb
  rcases hb with hb | hb | hb | hb | hb | hb | hb | hb <;> omega

/-- Every byte SHA-256 produces is below 256. -/
theorem sha256_bytes_lt (msg : List Nat) : ∀ b ∈ sha256 msg, b < 256 :=
  digestBytes_lt _

/-- Two strings sharing the same prefix are equal once their tails are. -/
theorem string_append_left_cancel {p t1 t2 : String} (h : p ++ t1 = p ++ t2) :
    t1 = t2 := by
  have hd := congrArg String.data h
  rw [String.data_append, String.data_append] at hd
  have := List.append_cancel_left hd
  cases t1
  cases t2
  exact congrArg String.mk this

/-- C7: `GenerateAddress` is deterministic on valid hex public keys,
distinct public keys yield distinct addresses except on collision of the
truncated digests, and every produced address is the `chert_` prefix
followed by the hex of the 20-byte digest truncation, of total length 46. -/
theorem c7_generateAddress_deterministic_prefixed
    (pk1 pk2 a1 a2 : String)
    (h1 : GenerateAddress pk1 = .ok a1) (h2 : GenerateAddress pk2 = .ok a2) :
    (pk1 = pk2 → a1 = a2) ∧
    ((∃ b1 b2, hexDecode pk1 = some b1 ∧ hexDecode pk2 = some b2 ∧
        (sha256 b1).take 20 ≠ (sha256 b2).take 20) → a1 ≠ a2) ∧
    (∃ tail, a1 = "chert_" ++ tail) ∧
    a1.length = 46 := by
  unfold GenerateAddress at h1 h2
  cases hd1 : hexDecode pk1 with
  | none => rw [hd1] at h1; exact absurd h1 (by simp)
  | some b1 =>
    rw [hd1] at h1
    cases hd2 : hexDecode pk2 with
    | none => rw [hd2] at h2; exact absurd h2 (by simp)
    | some b2 =>
      rw [hd2] at h2
      have ha1 : a1 = "chert_" ++ hexEncode ((sha256 b1).take 20) := by
        cases h1; rfl
      have ha2 : a2 = "chert_" ++ hexEncode ((sha256 b2).take 20) := by
        cases h2; rfl
      refine ⟨?_, ?_, ⟨_, ha1⟩, ?_⟩
      · intro heq
        subst heq
        rw [hd1] at hd2
        cases hd2
        rw [ha1, ha2]
      · rintro ⟨c1, c2, hc1, hc2, hne⟩ heq
        cases hc1
        cases hc2
        rw [ha1, ha2] at heq
        have htails := string_append_left_cancel heq
        have hb1 : ∀ b ∈ (sha256 b1).take 20, b < 256 :=
          fun b hb => sha256_bytes_lt b1 b (List.take_subset 20 (sha256 b1) hb)
        have hb2 : ∀ b ∈ (sha256 b2).take 20, b < 256 :=
          fun b hb => sha256_bytes_lt b2 b (List.take_subset 20 (sha256 b2) hb)
        exact hne (hexEncode_injOn hb1 hb2 htails)
      · rw [ha1, String.length_append, hexEncode_length, List.length_take,
          sha256_length]
        rfl

set_option maxRecDepth 8000 in
/-- Witness for C7 at the concrete public keys `""` and `"00"` (both valid
hex): their truncated digests differ, so the addresses differ, and the
first address carries the prefix and has length 46. -/
theorem c7_witness :
    ("chert_e3b0c44298fc1c149afbf4c8996fb92427ae41e4" : String) ≠
      "chert_6e340b9cffb37a989ca544e6bb780a2c78901d3f" ∧
    (∃ tail, ("chert_e3b0c44298fc1c149afbf4c8996fb92427ae41e4" : String) =
      "chert_" ++ tail) ∧
    ("chert_e3b0c44298fc1c149afbf4c8996fb92427ae41e4" : String).length = 46 :=
  have h := c7_generateAddress_deterministic_prefixed "" "00"
    "chert_e3b0c44298fc1c149afbf4c8996fb92427ae41e4"
    "chert_6e340b9cffb37a989ca544e6bb780a2c78901d3f" rfl rfl
  ⟨h.2.1 ⟨[], [0], rfl, rfl, by decide⟩, h.2.2.1, h.2.2.2⟩

end ChertSDK
